/-
Verification of the firds-rs streaming XML decoder and commodity product
taxonomy decoder against its natural-language specification.

The definitions below are a shallow embedding of the Rust sources:
  * `src/firds/src/product.rs`  — the commodity product taxonomy decoder
    (`BaseProduct::try_from_codes` and the per-level subproduct tables);
  * `src/src/xml/iter_xml.rs`   — the element tree materializer
    (`XmlIterator::parse_start`) and the selective tag iterator
    (`XmlIterator::next`), together with the `Element` accessors;
  * `src/src/xml/parse_utils.rs` — the field accessor helpers;
  * `src/src/xml/from_xml.rs`   — the `FromXml` record mapper for
    `InterestRate`, `FloatingRate` and `Term`.

External collaborators (the quick_xml tokenizer, chrono date parsing and
the std numeric parsers) are modelled as oracle parameters: the token
stream is an explicit list of events, namespace resolution is a function
`String → Option String`, and each external string-to-value parser is a
function argument of the embedded decoder.
-/
import Mathlib

namespace Firds

/-! ## Product taxonomy (src/firds/src/product.rs) -/

/-- The error type `ProductParseError` from `src/firds/src/error.rs`
(re-exported by the crate as `ProductError`). -/
inductive ProductError
  | NoSubProduct
  | BadSubProduct
  | BadProduct
deriving DecidableEq, Repr

/-- Embedding of `with_fsp_or_err`: verifies that the further-subproduct code
is present and applies the given continuation to it. -/
def withFspOrErr {T : Type} (fsp : Option String)
    (func : String → Except ProductError T) : Except ProductError T :=
  match fsp with
  | some s => func s
  | none => .error .NoSubProduct

/-- Embedding of `without_fsp_or_err`: verifies that no further-subproduct
code is present and, if so, returns the given subproduct. -/
def withoutFspOrErr {T : Type} (sp : T) (fsp : Option String) :
    Except ProductError T :=
  if fsp.isSome then .error .BadSubProduct else .ok sp

/-- Embedding of `optional_fsp`: an absent further-subproduct code is `none`;
a present one is parsed with the further-subproduct table, an unrecognized
code becoming `BadSubProduct` (the `From<strum::ParseError>` conversion). -/
def optionalFsp {T : Type} (fromStr : String → Option T) (fsp : Option String) :
    Except ProductError (Option T) :=
  match fsp with
  | some s =>
    match fromStr s with
    | some t => .ok (some t)
    | none => .error .BadSubProduct
  | none => .ok none

inductive GrainsAndOilSeedsFurtherSubProduct
  | FeedWheat | Soybeans | Corn | Rapeseed | Rice | Other
deriving DecidableEq, Repr

/-- The strum `EnumString` table for `GrainsAndOilSeedsFurtherSubProduct`. -/
def GrainsAndOilSeedsFurtherSubProduct.fromStr :
    String → Option GrainsAndOilSeedsFurtherSubProduct
  | "FWHT" => some .FeedWheat
  | "SOYB" => some .Soybeans
  | "CORN" => some .Corn
  | "RPSD" => some .Rapeseed
  | "RICE" => some .Rice
  | "OTHR" => some .Other
  | _ => none

inductive SoftsFurtherSubProduct
  | Cocoa | RobustaCoffee | WhiteSugar | RawSugar | Other
deriving DecidableEq, Repr

/-- The strum `EnumString` table for `SoftsFurtherSubProduct`. -/
def SoftsFurtherSubProduct.fromStr : String → Option SoftsFurtherSubProduct
  | "CCOA" => some .Cocoa
  | "ROBU" => some .RobustaCoffee
  | "WHSG" => some .WhiteSugar
  | "BRWN" => some .RawSugar
  | "OTHR" => some .Other
  | _ => none

inductive OliveOilFurtherSubProduct
  | Lampante
deriving DecidableEq, Repr

/-- The strum `EnumString` table for `OliveOilFurtherSubProduct`. -/
def OliveOilFurtherSubProduct.fromStr : String → Option OliveOilFurtherSubProduct
  | "LAMP" => some .Lampante
  | _ => none

inductive GrainFurtherSubProduct
  | MillingWheat
deriving DecidableEq, Repr

/-- The strum `EnumString` table for `GrainFurtherSubProduct`. -/
def GrainFurtherSubProduct.fromStr : String → Option GrainFurtherSubProduct
  | "MWHT" => some .MillingWheat
  | _ => none

inductive ElectricityFurtherSubProduct
  | BaseLoad | FinancialTransmissionRights | PeakLoad | OffPeak | Other
deriving DecidableEq, Repr

/-- The strum `EnumString` table for `ElectricityFurtherSubProduct`. -/
def ElectricityFurtherSubProduct.fromStr :
    String → Option ElectricityFurtherSubProduct
  | "BSLD" => some .BaseLoad
  | "FITR" => some .FinancialTransmissionRights
  | "PKLD" => some .PeakLoad
  | "OFFP" => some .OffPeak
  | "OTHR" => some .Other
  | _ => none

inductive NaturalGasFurtherSubProduct
  | Gaspool | Lng | Nbp | Ncg | Ttf
deriving DecidableEq, Repr

/-- The strum `EnumString` table for `NaturalGasFurtherSubProduct`. -/
def NaturalGasFurtherSubProduct.fromStr :
    String → Option NaturalGasFurtherSubProduct
  | "GASP" => some .Gaspool
  | "LNGG" => some .Lng
  | "NBPG" => some .Nbp
  | "NCGG" => some .Ncg
  | "TTFG" => some .Ttf
  | _ => none

inductive OilFurtherSubProduct
  | Bakken | Biodiesel | Brent | BrentNx | Canadian | Condensate | Diesel
  | Dubai | Espo | Ethanol | Fuel | FuelOil | Gasoil | Gasoline | HeatingOil
  | JetFuel | Kerosene | LightLouisianaSweet | Mars | Naphtha | Ngl | Tapis
  | Urals | Wti
deriving DecidableEq, Repr

/-- The strum `EnumString` table for `OilFurtherSubProduct`. -/
def OilFurtherSubProduct.fromStr : String → Option OilFurtherSubProduct
  | "BAKK" => some .Bakken
  | "BDSL" => some .Biodiesel
  | "BRNT" => some .Brent
  | "BRNX" => some .BrentNx
  | "CNDA" => some .Canadian
  | "COND" => some .Condensate
  | "DSEL" => some .Diesel
  | "DUBA" => some .Dubai
  | "ESPO" => some .Espo
  | "ETHA" => some .Ethanol
  | "FUEL" => some .Fuel
  | "FOIL" => some .FuelOil
  | "GOIL" => some .Gasoil
  | "GSLN" => some .Gasoline
  | "HEAT" => some .HeatingOil
  | "JTFL" => some .JetFuel
  | "KERO" => some .Kerosene
  | "LLSO" => some .LightLouisianaSweet
  | "MARS" => some .Mars
  | "NAPH" => some .Naphtha
  | "NGLO" => some .Ngl
  | "TAPI" => some .Tapis
  | "URAL" => some .Urals
  | "WTIO" => some .Wti
  | _ => none

inductive EmissionsFurtherSubProduct
  | Cer | Eru | Euae | Euaa | Other
deriving DecidableEq, Repr

/-- The strum `EnumString` table for `EmissionsFurtherSubProduct`. -/
def EmissionsFurtherSubProduct.fromStr :
    String → Option EmissionsFurtherSubProduct
  | "CERE" => some .Cer
  | "ERUE" => some .Eru
  | "EUAE" => some .Euae
  | "EUAA" => some .Euaa
  | "OTHR" => some .Other
  | _ => none

inductive WetFreightFurtherSubProduct
  | Tankers
deriving DecidableEq, Repr

/-- The strum `EnumString` table for `WetFreightFurtherSubProduct`. -/
def WetFreightFurtherSubProduct.fromStr :
    String → Option WetFreightFurtherSubProduct
  | "TNKR" => some .Tankers
  | _ => none

inductive DryFreightFurtherSubProduct
  | DryBulkCarriers
deriving DecidableEq, Repr

/-- The strum `EnumString` table for `DryFreightFurtherSubProduct`. -/
def DryFreightFurtherSubProduct.fromStr :
    String → Option DryFreightFurtherSubProduct
  | "DBCR" => some .DryBulkCarriers
  | _ => none

inductive NonPreciousMetalsFurtherSubProduct
  | Aluminium | AluminiumAlloy | Cobalt | Copper | IronOre | Lead | Molybdenum
  | Nasaac | Nickel | Steel | Tin | Zinc | Other
deriving DecidableEq, Repr

/-- The strum `EnumString` table for `NonPreciousMetalsFurtherSubProduct`. -/
def NonPreciousMetalsFurtherSubProduct.fromStr :
    String → Option NonPreciousMetalsFurtherSubProduct
  | "ALUM" => some .Aluminium
  | "ALUA" => some .AluminiumAlloy
  | "CBLT" => some .Cobalt
  | "COPR" => some .Copper
  | "IRON" => some .IronOre
  | "LEAD" => some .Lead
  | "MOLY" => some .Molybdenum
  | "NASC" => some .Nasaac
  | "NICK" => some .Nickel
  | "STEL" => some .Steel
  | "TINN" => some .Tin
  | "ZINC" => some .Zinc
  | "OTHR" => some .Other
  | _ => none

inductive PreciousMetalsFurtherSubProduct
  | Gold | Silver | Platinum | Palladium | Other
deriving DecidableEq, Repr

/-- The strum `EnumString` table for `PreciousMetalsFurtherSubProduct`. -/
def PreciousMetalsFurtherSubProduct.fromStr :
    String → Option PreciousMetalsFurtherSubProduct
  | "GOLD" => some .Gold
  | "SLVR" => some .Silver
  | "PTNM" => some .Platinum
  | "PLDM" => some .Palladium
  | "OTHR" => some .Other
  | _ => none

inductive AgriculturalSubProduct
  | GrainsAndOilSeeds (fsp : GrainsAndOilSeedsFurtherSubProduct)
  | Softs (fsp : SoftsFurtherSubProduct)
  | Potato
  | OliveOil (fsp : Option OliveOilFurtherSubProduct)
  | Dairy
  | Forestry
  | Seafood
  | Livestock
  | Grain (fsp : Option GrainFurtherSubProduct)
deriving DecidableEq, Repr

/-- Embedding of `AgriculturalSubProduct::try_from_codes`. -/
def AgriculturalSubProduct.tryFromCodes (subProduct : String)
    (furtherSubProduct : Option String) :
    Except ProductError AgriculturalSubProduct :=
  match subProduct with
  | "GROS" => withFspOrErr furtherSubProduct fun fsp =>
      match GrainsAndOilSeedsFurtherSubProduct.fromStr fsp with
      | some t => .ok (.GrainsAndOilSeeds t)
      | none => .error .BadSubProduct
  | "SOFT" => withFspOrErr furtherSubProduct fun fsp =>
      match SoftsFurtherSubProduct.fromStr fsp with
      | some t => .ok (.Softs t)
      | none => .error .BadSubProduct
  | "POTA" => withoutFspOrErr .Potato furtherSubProduct
  | "OOLI" => (optionalFsp OliveOilFurtherSubProduct.fromStr furtherSubProduct).map .OliveOil
  | "DIRY" => withoutFspOrErr .Dairy furtherSubProduct
  | "FRST" => withoutFspOrErr .Forestry furtherSubProduct
  | "SEAF" => withoutFspOrErr .Seafood furtherSubProduct
  | "LSTK" => withoutFspOrErr .Livestock furtherSubProduct
  | "GRIN" => (optionalFsp GrainFurtherSubProduct.fromStr furtherSubProduct).map .Grain
  | _ => .error .BadSubProduct

inductive EnergySubProduct
  | Electricity (fsp : ElectricityFurtherSubProduct)
  | NaturalGas (fsp : Option NaturalGasFurtherSubProduct)
  | Oil (fsp : Option OilFurtherSubProduct)
  | Coal
  | InterEnergy
  | RenewableEnergy
  | LightEnds
  | Distillates
deriving DecidableEq, Repr

/-- Embedding of `EnergySubProduct::try_from_codes`. -/
def EnergySubProduct.tryFromCodes (subProduct : String)
    (furtherSubProduct : Option String) : Except ProductError EnergySubProduct :=
  match subProduct with
  | "ELEC" => withFspOrErr furtherSubProduct fun fsp =>
      match ElectricityFurtherSubProduct.fromStr fsp with
      | some t => .ok (.Electricity t)
      | none => .error .BadSubProduct
  | "NGAS" => (optionalFsp NaturalGasFurtherSubProduct.fromStr furtherSubProduct).map .NaturalGas
  | "OILP" => (optionalFsp OilFurtherSubProduct.fromStr furtherSubProduct).map .Oil
  | "COAL" => withoutFspOrErr .Coal furtherSubProduct
  | "INRG" => withoutFspOrErr .InterEnergy furtherSubProduct
  | "RNNG" => withoutFspOrErr .RenewableEnergy furtherSubProduct
  | "LGHT" => withoutFspOrErr .LightEnds furtherSubProduct
  | "DIST" => withoutFspOrErr .Distillates furtherSubProduct
  | _ => .error .BadSubProduct

inductive EnvironmentalSubProduct
  | Emissions (fsp : Option EmissionsFurtherSubProduct)
  | Weather
  | CarbonRelated
deriving DecidableEq, Repr

/-- Embedding of `EnvironmentalSubProduct::try_from_codes`. -/
def EnvironmentalSubProduct.tryFromCodes (subProduct : String)
    (furtherSubProduct : Option String) :
    Except ProductError EnvironmentalSubProduct :=
  match subProduct with
  | "EMIS" => (optionalFsp EmissionsFurtherSubProduct.fromStr furtherSubProduct).map .Emissions
  | "WTHR" => withoutFspOrErr .Weather furtherSubProduct
  | "CRBR" => withoutFspOrErr .CarbonRelated furtherSubProduct
  | _ => .error .BadSubProduct

inductive FreightSubProduct
  | Wet (fsp : Option WetFreightFurtherSubProduct)
  | Dry (fsp : Option DryFreightFurtherSubProduct)
  | ContainerShips
deriving DecidableEq, Repr

/-- Embedding of `FreightSubProduct::try_from_codes`. -/
def FreightSubProduct.tryFromCodes (subProduct : String)
    (furtherSubProduct : Option String) : Except ProductError FreightSubProduct :=
  match subProduct with
  | "WETF" => (optionalFsp WetFreightFurtherSubProduct.fromStr furtherSubProduct).map .Wet
  | "DRYF" => (optionalFsp DryFreightFurtherSubProduct.fromStr furtherSubProduct).map .Dry
  | "CSHP" => withoutFspOrErr .ContainerShips furtherSubProduct
  | _ => .error .BadSubProduct

inductive FertilizerSubProduct
  | Ammonia | Dap | Potash | Sulphur | Urea | Uan
deriving DecidableEq, Repr

/-- Embedding of `FertilizerSubProduct::try_from_codes`. -/
def FertilizerSubProduct.tryFromCodes (subProduct : String)
    (furtherSubProduct : Option String) :
    Except ProductError FertilizerSubProduct :=
  match subProduct with
  | "AMMO" => withoutFspOrErr .Ammonia furtherSubProduct
  | "DAPH" => withoutFspOrErr .Dap furtherSubProduct
  | "PTSH" => withoutFspOrErr .Potash furtherSubProduct
  | "SLPH" => withoutFspOrErr .Sulphur furtherSubProduct
  | "UREA" => withoutFspOrErr .Urea furtherSubProduct
  | "UAAN" => withoutFspOrErr .Uan furtherSubProduct
  | _ => .error .BadSubProduct

inductive IndustrialProductsSubProduct
  | Construction | Manufacturing
deriving DecidableEq, Repr

/-- Embedding of `IndustrialProductsSubProduct::try_from_codes`. -/
def IndustrialProductsSubProduct.tryFromCodes (subProduct : String)
    (furtherSubProduct : Option String) :
    Except ProductError IndustrialProductsSubProduct :=
  match subProduct with
  | "CSTR" => withoutFspOrErr .Construction furtherSubProduct
  | "MFTG" => withoutFspOrErr .Manufacturing furtherSubProduct
  | _ => .error .BadSubProduct

inductive MetalsSubProduct
  | NonPrecious (fsp : NonPreciousMetalsFurtherSubProduct)
  | Precious (fsp : PreciousMetalsFurtherSubProduct)
deriving DecidableEq, Repr

/-- Embedding of `MetalsSubProduct::try_from_codes`. -/
def MetalsSubProduct.tryFromCodes (subProduct : String)
    (furtherSubProduct : Option String) : Except ProductError MetalsSubProduct :=
  match subProduct with
  | "NPRM" => withFspOrErr furtherSubProduct fun fsp =>
      match NonPreciousMetalsFurtherSubProduct.fromStr fsp with
      | some t => .ok (.NonPrecious t)
      | none => .error .BadSubProduct
  | "PRME" => withFspOrErr furtherSubProduct fun fsp =>
      match PreciousMetalsFurtherSubProduct.fromStr fsp with
      | some t => .ok (.Precious t)
      | none => .error .BadSubProduct
  | _ => .error .BadSubProduct

inductive PaperSubProduct
  | Containerboard | Newsprint | Pulp | RecoveredPaper
deriving DecidableEq, Repr

/-- Embedding of `PaperSubProduct::try_from_codes`. -/
def PaperSubProduct.tryFromCodes (subProduct : String)
    (furtherSubProduct : Option String) : Except ProductError PaperSubProduct :=
  match subProduct with
  | "CBRD" => withoutFspOrErr .Containerboard furtherSubProduct
  | "NSPT" => withoutFspOrErr .Newsprint furtherSubProduct
  | "PULP" => withoutFspOrErr .Pulp furtherSubProduct
  | "RCVP" => withoutFspOrErr .RecoveredPaper furtherSubProduct
  | _ => .error .BadSubProduct

inductive PolypropyleneSubProduct
  | Plastic
deriving DecidableEq, Repr

/-- Embedding of `PolypropyleneSubProduct::try_from_codes`. -/
def PolypropyleneSubProduct.tryFromCodes (subProduct : String)
    (furtherSubProduct : Option String) :
    Except ProductError PolypropyleneSubProduct :=
  match subProduct with
  | "PLST" => withoutFspOrErr .Plastic furtherSubProduct
  | _ => .error .BadSubProduct

inductive OtherC10SubProduct
  | Deliverable | NonDeliverable
deriving DecidableEq, Repr

/-- Embedding of `OtherC10SubProduct::try_from_codes`. -/
def OtherC10SubProduct.tryFromCodes (subProduct : String)
    (furtherSubProduct : Option String) : Except ProductError OtherC10SubProduct :=
  match subProduct with
  | "DLVR" => withoutFspOrErr .Deliverable furtherSubProduct
  | "NDLV" => withoutFspOrErr .NonDeliverable furtherSubProduct
  | _ => .error .BadSubProduct

inductive BaseProduct
  | Agricultural (sp : AgriculturalSubProduct)
  | Energy (sp : EnergySubProduct)
  | Environmental (sp : EnvironmentalSubProduct)
  | Freight (sp : FreightSubProduct)
  | Fertilizer (sp : FertilizerSubProduct)
  | IndustrialProducts (sp : IndustrialProductsSubProduct)
  | Metals (sp : MetalsSubProduct)
  | MultiCommodityExotic
  | Paper (sp : PaperSubProduct)
  | Polypropylene (sp : PolypropyleneSubProduct)
  | Inflation
  | OfficialEconomicStatistics
  | OtherC10 (sp : OtherC10SubProduct)
  | Other
deriving DecidableEq, Repr

/-- Embedding of `BaseProduct::try_from_codes`. -/
def BaseProduct.tryFromCodes (prod : String) (subProd : Option String)
    (furtherSubProd : Option String) : Except ProductError BaseProduct :=
  match subProd with
  | some sp =>
    match prod with
    | "AGRI" => (AgriculturalSubProduct.tryFromCodes sp furtherSubProd).map .Agricultural
    | "NRGY" => (EnergySubProduct.tryFromCodes sp furtherSubProd).map .Energy
    | "ENVR" => (EnvironmentalSubProduct.tryFromCodes sp furtherSubProd).map .Environmental
    | "FRGT" => (FreightSubProduct.tryFromCodes sp furtherSubProd).map .Freight
    | "FRTL" => (FertilizerSubProduct.tryFromCodes sp furtherSubProd).map .Fertilizer
    | "INDP" => (IndustrialProductsSubProduct.tryFromCodes sp furtherSubProd).map .IndustrialProducts
    | "METL" => (MetalsSubProduct.tryFromCodes sp furtherSubProd).map .Metals
    | "PAPR" => (PaperSubProduct.tryFromCodes sp furtherSubProd).map .Paper
    | "POLY" => (PolypropyleneSubProduct.tryFromCodes sp furtherSubProd).map .Polypropylene
    | "OTHC" => (OtherC10SubProduct.tryFromCodes sp furtherSubProd).map .OtherC10
    | _ => .error .BadSubProduct
  | none =>
    match prod with
    | "MCEX" => .ok .MultiCommodityExotic
    | "INFL" => .ok .Inflation
    | "OEST" => .ok .OfficialEconomicStatistics
    | "OTHR" => .ok .Other
    | _ => .error .BadProduct

/-! ## XML token stream model (the quick_xml tokenizer, external) -/

/-- Raw escaped content handed over by the external tokenizer.  `unescape`-ing
it either succeeds with the unescaped string or fails (quick_xml returns a
`Result` from `unescape` / `unescape_value`). -/
inductive Raw
  | ok (s : String)
  | bad
deriving DecidableEq, Repr

/-- The result of quick_xml unescaping: `none` models the failing case. -/
def Raw.unescape : Raw → Option String
  | .ok s => some s
  | .bad => none

/-- One entry of a start tag's attribute list as produced by the tokenizer:
either a well-formed attribute (whose value is still escaped) or a malformed
one (`Attribute` parse failure, i.e. `a.ok()` is `Err`). -/
inductive AttrTok
  | ok (key : String) (value : Raw)
  | malformed
deriving DecidableEq, Repr

/-- One event of the XML token stream (spec section 6: start / end / text /
EOF events; end of the list plays the role of `Event::Eof`).  `readErr` models
`read_event_into` returning `Err`; `other` models the remaining quick_xml
event kinds (comments, processing instructions, declarations, CDATA), which
both loops of the source skip via their catch-all arm. -/
inductive Token
  | start (name : String) (attrs : List AttrTok)
  | text (content : Raw)
  | endTag (name : String)
  | readErr
  | other
deriving DecidableEq, Repr

/-- The error type `XmlError` from `src/src/xml/error.rs`, with the payload
types of the external crates erased.  `FirdsStrum` stands for
`XmlError::Firds(ParseError::StrumEnum(_))`, the conversion applied to a strum
enum-parse failure. -/
inductive XmlErr
  | Attr
  | QuickXml
  | Int
  | Float
  | Bool
  | DateTime
  | ElementNotFound
  | UnexpectedElement
  | AttributeNotFound
  | TextNotFound
  | NoneFound
  | Io
  | FirdsStrum
deriving DecidableEq, Repr

/-! ## Element tree (src/src/xml/iter_xml.rs) -/

/-- The `Element` struct: local tag name, optional namespace URI, attribute
map (`HashMap<String, String>`, modelled as an association list built by
insert-with-overwrite), ordered children and concatenated direct text. -/
structure Element where
  local_name : String
  ns : Option String
  attributes : List (String × String)
  children : List Element
  text : String

/-- Embedding of `Element::find_child`: the first immediate child with the
given tag name, if any. -/
def Element.find_child (e : Element) (tag_name : String) : Option Element :=
  e.children.find? fun child => child.local_name == tag_name

/-- Embedding of `Element::get_child`: like `find_child` but an
`ElementNotFound` error when no child matches. -/
def Element.get_child (e : Element) (tag_name : String) : Except XmlErr Element :=
  match e.find_child tag_name with
  | some c => .ok c
  | none => .error .ElementNotFound

/-- The characters after the first `:`, if any (quick_xml finds the position
of the first `b':'`; in UTF-8 that byte is exactly the char `:`). -/
def afterColon : List Char → Option (List Char)
  | [] => none
  | c :: cs => if c = ':' then some cs else afterColon cs

/-- The local part of a qualified name: everything after the first `:` when
the name has a prefix, the whole name otherwise (quick_xml
`QName::local_name`). -/
def localOf (s : String) : String :=
  match afterColon s.data with
  | some rest => String.mk rest
  | none => s

/-- Insert-with-overwrite into the association-list model of
`HashMap<String, String>`: a later binding for an existing key replaces the
earlier one, a new key is appended. -/
def mapInsert (m : List (String × String)) (kv : String × String) :
    List (String × String) :=
  if m.any fun p => p.1 = kv.1 then
    m.map fun p => if p.1 = kv.1 then (p.1, kv.2) else p
  else
    m ++ [kv]

/-- The attribute collection of `parse_start`: malformed attributes are
dropped (`filter_map(|a| a.ok())`), values whose unescaping fails are
replaced by the empty string (`unwrap_or_else(|_| "".into())`), and the
resulting pairs are collected into the hash map. -/
def collectAttrs (attrs : List AttrTok) : List (String × String) :=
  (attrs.filterMap fun a =>
    match a with
    | .ok k v => some (k, (Raw.unescape v).getD "")
    | .malformed => none).foldl mapInsert []

/-- The `Element` value built at the end of `parse_start` from the start
tag's qualified name and raw attributes, the accumulated children and the
accumulated optional text.  `res` is the namespace resolver of the
surrounding `NsReader` (`resolve_element`); `Bound` becomes `some`,
`Unbound`/`Unknown` become `none`. -/
def mkElement (res : String → Option String) (qname : String)
    (attrs : List AttrTok) (children : List Element) (txt : Option String) :
    Element :=
  { local_name := localOf qname
    ns := res qname
    attributes := collectAttrs attrs
    children := children
    text := txt.getD "" }

/-- The token-consuming loop of `XmlIterator::parse_start`, parameterised by
the qualified name of the already-read start tag (used to match the closing
tag by name equality, `e.name() == start.name()`).  Returns the accumulated
children, the accumulated optional text, and the unconsumed remainder of the
stream (bundled with the fact that the loop only consumes tokens).  A nested
start tag is materialized recursively (`self.parse_start(e)?`); a text token
is unescaped with the empty string as fallback and appended; a matching end
tag or the end of the stream (`Event::Eof`) breaks the loop; every other
event, including a read error, is skipped by the catch-all arm. -/
def parseBody (res : String → Option String) (name : String) (ts : List Token) :
    Except XmlErr
      (List Element × Option String × { rest : List Token // rest.length ≤ ts.length }) :=
  match ts with
  | [] => .ok ([], none, ⟨[], by simp⟩)
  | .start n a :: rest =>
    match parseBody res n rest with
    | .error e => .error e
    | .ok (cs, ctxt, ⟨rest1, h1⟩) =>
      match parseBody res name rest1 with
      | .error e => .error e
      | .ok (cs2, txt2, ⟨rest2, h2⟩) =>
        .ok (mkElement res n a cs ctxt :: cs2, txt2,
          ⟨rest2, by simp only [List.length_cons]; omega⟩)
  | .text r :: rest =>
    match parseBody res name rest with
    | .error e => .error e
    | .ok (cs, txt, ⟨rest1, h1⟩) =>
      .ok (cs, some ((Raw.unescape r).getD "" ++ (txt.getD "")),
        ⟨rest1, by simp only [List.length_cons]; omega⟩)
  | .endTag n :: rest =>
    if n = name then
      .ok ([], none, ⟨rest, by simp⟩)
    else
      match parseBody res name rest with
      | .error e => .error e
      | .ok (cs, txt, ⟨rest1, h1⟩) =>
        .ok (cs, txt, ⟨rest1, by simp only [List.length_cons]; omega⟩)
  | .readErr :: rest =>
    match parseBody res name rest with
    | .error e => .error e
    | .ok (cs, txt, ⟨rest1, h1⟩) =>
      .ok (cs, txt, ⟨rest1, by simp only [List.length_cons]; omega⟩)
  | .other :: rest =>
    match parseBody res name rest with
    | .error e => .error e
    | .ok (cs, txt, ⟨rest1, h1⟩) =>
      .ok (cs, txt, ⟨rest1, by simp only [List.length_cons]; omega⟩)
termination_by ts.length
decreasing_by all_goals simp only [List.length_cons]; omega

/-- Embedding of `XmlIterator::parse_start`: materialize one element whose
start tag (qualified name plus raw attributes) has already been read,
consuming tokens up to and including its matching end tag (or the end of the
stream), and return it together with the unconsumed remainder. -/
def parse_start (res : String → Option String) (startName : String)
    (attrs : List AttrTok) (ts : List Token) :
    Except XmlErr (Element × List Token) :=
  match parseBody res startName ts with
  | .error e => .error e
  | .ok (cs, txt, ⟨rest, _⟩) => .ok (mkElement res startName attrs cs txt, rest)

/-- The three ways one call to `XmlIterator::next` can end: yield an item
(`Some(result)` plus the advanced stream), report exhaustion (`None` on
`Event::Eof`), or abort the process (the `Err(e) => panic!` arm). -/
inductive NextOutcome
  | item (r : Except XmlErr (Element × List Token))
  | done
  | panicked

/-- Embedding of `XmlIterator::next`: scan for the next start tag whose
qualified name is in the interest set and delegate to `parse_start`; skip any
other start tag, end tag, text or miscellaneous event; stop at end of stream;
panic on a tokenizer read error. -/
def nextItem (names : List String) (res : String → Option String) :
    List Token → NextOutcome
  | [] => .done
  | .start n a :: rest =>
    if n ∈ names then .item (parse_start res n a rest)
    else nextItem names res rest
  | .readErr :: _ => .panicked
  | .text _ :: rest => nextItem names res rest
  | .endTag _ :: rest => nextItem names res rest
  | .other :: rest => nextItem names res rest

/-- Exhaustive consumption of the iterator: the list of yielded
`Result<Element, XmlError>` items, together with a flag recording whether
iteration ended in the panicking arm rather than by exhaustion. -/
def iterAux (names : List String) (res : String → Option String) :
    List Token → List (Except XmlErr Element) × Bool
  | [] => ([], false)
  | .start n a :: rest =>
    if n ∈ names then
      match parseBody res n rest with
      | .error e => ([.error e], false)
      | .ok (cs, txt, ⟨rest2, _h2⟩) =>
        let r := iterAux names res rest2
        (.ok (mkElement res n a cs txt) :: r.1, r.2)
    else iterAux names res rest
  | .readErr :: _ => ([], true)
  | .text _ :: rest => iterAux names res rest
  | .endTag _ :: rest => iterAux names res rest
  | .other :: rest => iterAux names res rest
termination_by ts => ts.length
decreasing_by all_goals simp only [List.length_cons]; omega

/-- Does a `next` call yield an item (as opposed to exhaustion or a panic)? -/
def NextOutcome.isItem : NextOutcome → Bool
  | .item _ => true
  | .done => false
  | .panicked => false

/-! ## Field accessors (src/src/xml/parse_utils.rs) -/

/-- Possible outcomes of running a piece of Rust code that may panic:
a normal `Result` value or a panic. -/
inductive RResult (ε α : Type)
  | ok (a : α)
  | err (e : ε)
  | panicked
deriving DecidableEq, Repr

/-- Embedding of `text_or_none`: the element's text, when an element is
given. -/
def text_or_none : Option Element → Option String
  | some e => some e.text
  | none => none

/-- Embedding of `parse_or_none::<T>`: absent element is `None`; otherwise
the element's text is parsed with the external `FromStr` parser `p`
(an oracle), a parse failure being converted to the `XmlError` variant
`errOf` that `From<<T as FromStr>::Err>` produces for this `T`. -/
def parse_or_none {T : Type} (p : String → Option T) (errOf : XmlErr) :
    Option Element → Except XmlErr (Option T)
  | some e =>
    match p e.text with
    | some v => .ok (some v)
    | none => .error errOf
  | none => .ok none

/-- Rust byte slicing `&s[..n]` on a UTF-8 string, at the level of the
char list: `some` of the chars making up the first `n` bytes when `n` is a
char boundary not beyond the end of the string, `none` (a panic) when the
string is shorter than `n` bytes or `n` falls inside a multi-byte char. -/
def takeBytes : List Char → Nat → Option (List Char)
  | _, 0 => some []
  | [], _ + 1 => none
  | c :: cs, n + 1 =>
    if c.utf8Size ≤ n + 1 then
      (takeBytes cs (n + 1 - c.utf8Size)).map (c :: ·)
    else none

/-- Embedding of `date_or_none`: for a present element, slice the first ten
bytes of its text (`&elem.text[..10]`, which panics when the text is shorter
than ten bytes or byte ten is not a char boundary) and hand the slice to the
external chrono parser `chronoParse` (the oracle standing for
`NaiveDate::parse_from_str(_, "%Y-%m-%d")`, with `δ` the `NaiveDate` type);
a chrono failure becomes a `DateTime` error.  An absent element is
`Ok(None)`. -/
def date_or_none {δ : Type} (chronoParse : String → Except Unit δ) :
    Option Element → RResult XmlErr (Option δ)
  | some elem =>
    match takeBytes elem.text.data 10 with
    | none => .panicked
    | some pre =>
      match chronoParse (String.mk pre) with
      | .ok d => .ok (some d)
      | .error _ => .err .DateTime
  | none => .ok none

/-! ## FromXml record mapper (src/src/xml/from_xml.rs, src/src/enums.rs) -/

/-- The `TermUnit` enumeration. -/
inductive TermUnit
  | Days | Week | Month | Year
deriving DecidableEq, Repr

/-- The strum `EnumString` table for `TermUnit` (`TermUnit::try_from`). -/
def TermUnit.fromStr : String → Option TermUnit
  | "DAYS" => some .Days
  | "WEEK" => some .Week
  | "MNTH" => some .Month
  | "YEAR" => some .Year
  | _ => none

/-- The `IndexCode` enumeration of recognized four-letter benchmark codes. -/
inductive IndexCode
  | Eonia | EoniaSwap | Euribor | EuroSwiss | GcfRepo | Isdafix | Libid
  | Libor | MuniAaa | Pfandbriefe | Tibor | Stibor | Bbsw | Jibar | Bubor
  | Cdor | Cibor | Mosprim | Nibor | Pribor | Telbor | Wibor | Treasury
  | Swap | FutureSwap
deriving DecidableEq, Repr

/-- The strum `EnumString` table for `IndexCode`. -/
def IndexCode.fromStr : String → Option IndexCode
  | "EONA" => some .Eonia
  | "EONS" => some .EoniaSwap
  | "EURO" => some .Euribor
  | "EUCH" => some .EuroSwiss
  | "GCFR" => some .GcfRepo
  | "ISDA" => some .Isdafix
  | "LIBI" => some .Libid
  | "LIBO" => some .Libor
  | "MAAA" => some .MuniAaa
  | "PFAN" => some .Pfandbriefe
  | "TIBO" => some .Tibor
  | "STBO" => some .Stibor
  | "BBSW" => some .Bbsw
  | "JIBA" => some .Jibar
  | "BUBO" => some .Bubor
  | "CDOR" => some .Cdor
  | "CIBO" => some .Cibor
  | "MOSP" => some .Mosprim
  | "NIBO" => some .Nibor
  | "PRBO" => some .Pribor
  | "TLBO" => some .Telbor
  | "WIBO" => some .Wibor
  | "TREA" => some .Treasury
  | "SWAP" => some .Swap
  | "FUSW" => some .FutureSwap
  | _ => none

/-- The `IndexName` union: a recognized benchmark code, or else arbitrary
free text. -/
inductive IndexName
  | Code (c : IndexCode)
  | Text (s : String)
deriving DecidableEq, Repr

/-- Embedding of `IndexName::from_str`: try the `IndexCode` table first and
fall back to free text; this parse is infallible (its `Result` is always
`Ok`). -/
def IndexName.fromStr (s : String) : Except XmlErr IndexName :=
  match IndexCode.fromStr s with
  | some c => .ok (.Code c)
  | none => .ok (.Text s)

/-- The `Term` struct (`number` is an `i32`, held as an unbounded integer
produced by the external `str::parse::<i32>` oracle). -/
structure Term where
  number : Int
  unit : TermUnit
deriving DecidableEq, Repr

/-- Embedding of `Term::from_xml`: required child `Val` parsed as an `i32`,
required child `Unit` parsed with the `TermUnit` table. -/
def Term.from_xml (parseI32 : String → Option Int) (elem : Element) :
    Except XmlErr Term :=
  match elem.get_child "Val" with
  | .error e => .error e
  | .ok v =>
    match parseI32 v.text with
    | none => .error .Int
    | some number =>
      match elem.get_child "Unit" with
      | .error e => .error e
      | .ok u =>
        match TermUnit.fromStr u.text with
        | none => .error .FirdsStrum
        | some unit => .ok ⟨number, unit⟩

/-- The derived `from_xml_option` of the `FromXml` trait, at type `Term`:
`Ok(None)` when no element is given, otherwise delegate and wrap. -/
def Term.from_xml_option (parseI32 : String → Option Int) :
    Option Element → Except XmlErr (Option Term)
  | some e => (Term.from_xml parseI32 e).map some
  | none => .ok none

/-- The `FloatingRate` struct. -/
structure FloatingRate where
  name : Option IndexName
  term : Option Term
deriving DecidableEq, Repr

/-- Embedding of `FloatingRate::from_xml`: required child `RefRate`; the
index name comes from the text of `RefRate/Indx` if present, else from
`RefRate/Nm` if present, else is `None`; the term from the optional `Term`
child. -/
def FloatingRate.from_xml (parseI32 : String → Option Int) (elem : Element) :
    Except XmlErr FloatingRate :=
  match elem.get_child "RefRate" with
  | .error e => .error e
  | .ok ref_rate_elem =>
    let nameRes : Except XmlErr (Option IndexName) :=
      match text_or_none (ref_rate_elem.find_child "Indx") with
      | some t => (IndexName.fromStr t).map some
      | none =>
        match text_or_none (ref_rate_elem.find_child "Nm") with
        | some t => (IndexName.fromStr t).map some
        | none => .ok none
    match nameRes with
    | .error e => .error e
    | .ok name =>
      match Term.from_xml_option parseI32 (elem.find_child "Term") with
      | .error e => .error e
      | .ok term => .ok ⟨name, term⟩

/-- The `InterestRate` choice type; `F64` is the carrier of the external
`f64` values. -/
inductive InterestRate (F64 : Type)
  | Fixed (rate : F64)
  | Floating (rate : FloatingRate) (spread : Option Int)

/-- Embedding of `InterestRate::from_xml`: probe for a `Fltg` child first
and decode the `Floating` variant from it (with its optional basis-point
spread `BsisPtSprd`); otherwise require a `Fxd` child whose text parses as an
`f64` (the external oracle `parseF64`) for the `Fixed` variant. -/
def InterestRate.from_xml {F64 : Type} (parseF64 : String → Option F64)
    (parseI32 : String → Option Int) (elem : Element) :
    Except XmlErr (InterestRate F64) :=
  match elem.find_child "Fltg" with
  | some fltg =>
    match FloatingRate.from_xml parseI32 fltg with
    | .error e => .error e
    | .ok fr =>
      match parse_or_none parseI32 XmlErr.Int (fltg.find_child "BsisPtSprd") with
      | .error e => .error e
      | .ok sp => .ok (.Floating fr sp)
  | none =>
    match elem.get_child "Fxd" with
    | .error e => .error e
    | .ok fxd =>
      match parseF64 fxd.text with
      | none => .error .Float
      | some r => .ok (.Fixed r)

/-! ## Serialization and well-formedness, for the round-trip property -/

/-- Modelled from the spec: the token form of an attribute map.  The
repository has no write path, so the spec's round-trip property
`materialize(serialize(tree))` is stated against this serializer. -/
def attrToks (attrs : List (String × String)) : List AttrTok :=
  attrs.map fun p => .ok p.1 (.ok p.2)

/-- Modelled from the spec: the optional text accumulator value that a text
field corresponds to (no text token is emitted for empty text). -/
def strTextOpt (tx : String) : Option String :=
  if tx = "" then none else some tx

mutual

/-- Modelled from the spec: the tokens of an element after its start tag —
its text (direct text only), its children in document order, then its end
tag. -/
def serializeInner : Element → List Token
  | ⟨nm, _, _, cs, tx⟩ =>
    (if tx = "" then [] else [.text (.ok tx)]) ++ serializeChildren cs ++ [.endTag nm]

/-- Modelled from the spec: the token serialization of a sequence of sibling
elements in document order. -/
def serializeChildren : List Element → List Token
  | [] => []
  | c :: cs =>
    (.start c.local_name (attrToks c.attributes) :: serializeInner c) ++ serializeChildren cs

end

/-- Modelled from the spec: the full token serialization of one element. -/
def serializeElem (e : Element) : List Token :=
  .start e.local_name (attrToks e.attributes) :: serializeInner e

/-- A well-formed tree without mixed content, relative to the ambient
namespace resolver: tag names are plain local names (no prefix), the
namespace field agrees with the resolver, attribute keys are unique (as in
the hash map they came from), no node has both text and children, and the
children are themselves well formed. -/
inductive WF (res : String → Option String) : Element → Prop
  | mk (nm : String) (nsv : Option String) (attrs : List (String × String))
      (cs : List Element) (tx : String) :
      localOf nm = nm →
      nsv = res nm →
      (attrs.map Prod.fst).Nodup →
      (tx = "" ∨ cs = []) →
      (∀ c ∈ cs, WF res c) →
      WF res ⟨nm, nsv, attrs, cs, tx⟩

/-- The materializer loop with the consumption bound of the remainder
erased: same data as `parseBody`, packaged for statements. -/
def parseBodyV (res : String → Option String) (name : String) (ts : List Token) :
    Except XmlErr (List Element × Option String × List Token) :=
  (parseBody res name ts).map fun o => (o.1, o.2.1, o.2.2.val)

/-- A token that the scanning loop of `next` passes over without yielding,
panicking or stopping: a start tag outside the interest set, any end tag or
text, or a miscellaneous event. -/
def SkipTok (names : List String) : Token → Prop
  | .start n _ => n ∉ names
  | .text _ => True
  | .endTag _ => True
  | .readErr => False
  | .other => True

/-! ## Lemmas about the materializer loop -/

/-- The materializer only consumes tokens: the remainder it returns is no
longer than its input. -/
theorem parseBodyV_length_le {res : String → Option String} {name : String}
    {ts : List Token} {cs : List Element} {txt : Option String} {r : List Token}
    (h : parseBodyV res name ts = .ok (cs, txt, r)) : r.length ≤ ts.length := by
  unfold parseBodyV at h
  cases hpb : parseBody res name ts with
  | error e => rw [hpb] at h; simp [Except.map] at h
  | ok o =>
    rw [hpb] at h
    simp only [Except.map, Except.ok.injEq, Prod.mk.injEq] at h
    obtain ⟨-, -, h3⟩ := h
    exact h3 ▸ o.2.2.property

/-- Recover the bundled form of the loop's result from the erased form. -/
theorem parseBody_of_V {res : String → Option String} {name : String}
    {ts : List Token} {cs : List Element} {txt : Option String} {r : List Token}
    (h : parseBodyV res name ts = .ok (cs, txt, r)) :
    parseBody res name ts = .ok (cs, txt, ⟨r, parseBodyV_length_le h⟩) := by
  unfold parseBodyV at h
  cases hpb : parseBody res name ts with
  | error e => rw [hpb] at h; simp [Except.map] at h
  | ok o =>
    rw [hpb] at h
    simp only [Except.map, Except.ok.injEq, Prod.mk.injEq] at h
    obtain ⟨h1, h2, h3⟩ := h
    obtain ⟨cs0, txt0, r0⟩ := o
    simp only at h1 h2 h3
    subst h1 h2
    congr 1
    simp only [Prod.mk.injEq, true_and]
    exact Subtype.ext h3

/-- An empty stream (immediate `Event::Eof`) ends the element with no
children, no text and nothing left to read. -/
theorem parseBodyV_nil (res : String → Option String) (name : String) :
    parseBodyV res name [] = .ok ([], none, []) := by
  simp [parseBodyV, parseBody, Except.map]

/-- A nested start tag materializes the child recursively, then the loop
continues on the child's remainder. -/
theorem parseBodyV_start_ok {res : String → Option String} {name n : String}
    {a : List AttrTok} {rest : List Token} {cs : List Element}
    {ctxt : Option String} {r1 : List Token} {cs2 : List Element}
    {txt2 : Option String} {r2 : List Token}
    (h1 : parseBodyV res n rest = .ok (cs, ctxt, r1))
    (h2 : parseBodyV res name r1 = .ok (cs2, txt2, r2)) :
    parseBodyV res name (.start n a :: rest) =
      .ok (mkElement res n a cs ctxt :: cs2, txt2, r2) := by
  have hb1 := parseBody_of_V h1
  have hb2 := parseBody_of_V h2
  unfold parseBodyV
  simp only [parseBody, hb1, hb2, Except.map]

/-- A text token is unescaped (with the empty string as fallback) and
prepended to whatever text the rest of the loop accumulates. -/
theorem parseBodyV_text_ok {res : String → Option String} {name : String}
    {r : Raw} {rest : List Token} {cs : List Element} {txt : Option String}
    {r1 : List Token} (h : parseBodyV res name rest = .ok (cs, txt, r1)) :
    parseBodyV res name (.text r :: rest) =
      .ok (cs, some ((Raw.unescape r).getD "" ++ (txt.getD "")), r1) := by
  have hb := parseBody_of_V h
  unfold parseBodyV
  simp only [parseBody, hb, Except.map]

/-- The element's own end tag breaks the loop, consuming the tag. -/
theorem parseBodyV_end_match (res : String → Option String) (name : String)
    (rest : List Token) :
    parseBodyV res name (.endTag name :: rest) = .ok ([], none, rest) := by
  simp [parseBodyV, parseBody, Except.map]

/-- An end tag with a different name falls into the catch-all arm and is
skipped. -/
theorem parseBodyV_end_skip {n name : String} (res : String → Option String)
    (hne : ¬ n = name) (rest : List Token) :
    parseBodyV res name (.endTag n :: rest) = parseBodyV res name rest := by
  unfold parseBodyV
  simp only [parseBody, hne, if_false]
  cases hpb : parseBody res name rest with
  | error e => simp [hpb, Except.map]
  | ok o => obtain ⟨cs0, txt0, r0, hr0⟩ := o; simp [hpb, Except.map]

/-- A read error inside the materializer loop falls into the catch-all arm
and is skipped. -/
theorem parseBodyV_readErr_skip (res : String → Option String) (name : String)
    (rest : List Token) :
    parseBodyV res name (.readErr :: rest) = parseBodyV res name rest := by
  unfold parseBodyV
  simp only [parseBody]
  cases hpb : parseBody res name rest with
  | error e => simp [hpb, Except.map]
  | ok o => obtain ⟨cs0, txt0, r0, hr0⟩ := o; simp [hpb, Except.map]

/-- A miscellaneous event falls into the catch-all arm and is skipped. -/
theorem parseBodyV_other_skip (res : String → Option String) (name : String)
    (rest : List Token) :
    parseBodyV res name (.other :: rest) = parseBodyV res name rest := by
  unfold parseBodyV
  simp only [parseBody]
  cases hpb : parseBody res name rest with
  | error e => simp [hpb, Except.map]
  | ok o => obtain ⟨cs0, txt0, r0, hr0⟩ := o; simp [hpb, Except.map]

/-- The materializer in terms of its loop: build the element from the start
tag's data and the loop's accumulators. -/
theorem parse_start_of_V {res : String → Option String} {n : String}
    {a : List AttrTok} {ts : List Token} {cs : List Element}
    {txt : Option String} {rest : List Token}
    (h : parseBodyV res n ts = .ok (cs, txt, rest)) :
    parse_start res n a ts = .ok (mkElement res n a cs txt, rest) := by
  have hb := parseBody_of_V h
  unfold parse_start
  rw [hb]

/-! ## Lemmas about the selective tag iterator -/

/-- An exhausted stream yields nothing. -/
theorem iterAux_nil (names : List String) (res : String → Option String) :
    iterAux names res [] = ([], false) := by
  simp [iterAux]

/-- An interesting start tag is materialized and yielded, then iteration
continues on the remainder. -/
theorem iterAux_start_mem {names : List String} {res : String → Option String}
    {n : String} (hmem : n ∈ names) (a : List AttrTok) {rest : List Token}
    {cs : List Element} {txt : Option String} {r2 : List Token}
    (h : parseBodyV res n rest = .ok (cs, txt, r2)) :
    iterAux names res (.start n a :: rest) =
      (.ok (mkElement res n a cs txt) :: (iterAux names res r2).1,
        (iterAux names res r2).2) := by
  have hb := parseBody_of_V h
  simp only [iterAux, hmem, if_true, hb]

/-- An uninteresting start tag is skipped without consuming its subtree. -/
theorem iterAux_start_not_mem {names : List String} {res : String → Option String}
    {n : String} (hmem : n ∉ names) (a : List AttrTok) (rest : List Token) :
    iterAux names res (.start n a :: rest) = iterAux names res rest := by
  simp only [iterAux, hmem, if_false]

/-- Text events are skipped by the scanner. -/
theorem iterAux_skip_text (names : List String) (res : String → Option String)
    (r : Raw) (rest : List Token) :
    iterAux names res (.text r :: rest) = iterAux names res rest := by
  simp only [iterAux]

/-- End-tag events are skipped by the scanner. -/
theorem iterAux_skip_end (names : List String) (res : String → Option String)
    (n : String) (rest : List Token) :
    iterAux names res (.endTag n :: rest) = iterAux names res rest := by
  simp only [iterAux]

/-- Miscellaneous events are skipped by the scanner. -/
theorem iterAux_skip_other (names : List String) (res : String → Option String)
    (rest : List Token) :
    iterAux names res (.other :: rest) = iterAux names res rest := by
  simp only [iterAux]

/-- A read error while scanning ends iteration through the panicking arm. -/
theorem iterAux_readErr (names : List String) (res : String → Option String)
    (rest : List Token) :
    iterAux names res (.readErr :: rest) = ([], true) := by
  simp only [iterAux]

/-! ## Totality of the materializer -/

/-- Bounded-length form of the totality of the materializer loop. -/
theorem parseBodyV_total_aux (res : String → Option String) :
    ∀ (N : Nat) (ts : List Token) (name : String), ts.length ≤ N →
      ∃ cs txt rest, parseBodyV res name ts = .ok (cs, txt, rest) := by
  intro N
  induction N with
  | zero =>
    intro ts name hle
    have hts : ts = [] := List.length_eq_zero.mp (Nat.le_zero.mp hle)
    subst hts
    exact ⟨[], none, [], parseBodyV_nil res name⟩
  | succ N ih =>
    intro ts name hle
    cases ts with
    | nil => exact ⟨[], none, [], parseBodyV_nil res name⟩
    | cons t rest =>
      have hr : rest.length ≤ N := by
        simp only [List.length_cons] at hle; omega
      cases t with
      | start n a =>
        obtain ⟨cs, ctxt, r1, h1⟩ := ih rest n hr
        have hr1 : r1.length ≤ N := le_trans (parseBodyV_length_le h1) hr
        obtain ⟨cs2, txt2, r2, h2⟩ := ih r1 name hr1
        exact ⟨_, _, _, parseBodyV_start_ok h1 h2⟩
      | text r =>
        obtain ⟨cs, txt, r1, h1⟩ := ih rest name hr
        exact ⟨_, _, _, parseBodyV_text_ok h1⟩
      | endTag n =>
        by_cases hn : n = name
        · subst hn
          exact ⟨_, _, _, parseBodyV_end_match res n rest⟩
        · obtain ⟨cs, txt, r1, h1⟩ := ih rest name hr
          exact ⟨_, _, _, (parseBodyV_end_skip res hn rest).trans h1⟩
      | readErr =>
        obtain ⟨cs, txt, r1, h1⟩ := ih rest name hr
        exact ⟨_, _, _, (parseBodyV_readErr_skip res name rest).trans h1⟩
      | other =>
        obtain ⟨cs, txt, r1, h1⟩ := ih rest name hr
        exact ⟨_, _, _, (parseBodyV_other_skip res name rest).trans h1⟩

/-- The materializer loop never fails, on any token stream. -/
theorem parseBodyV_total (res : String → Option String) (name : String)
    (ts : List Token) :
    ∃ cs txt rest, parseBodyV res name ts = .ok (cs, txt, rest) :=
  parseBodyV_total_aux res ts.length ts name (Nat.le_refl _)

/-! ## Lemmas about the attribute map and element reconstruction -/

/-- Inserting a fresh key into the attribute map appends it. -/
theorem mapInsert_fresh {m : List (String × String)} {kv : String × String}
    (h : ∀ p ∈ m, p.1 ≠ kv.1) : mapInsert m kv = m ++ [kv] := by
  unfold mapInsert
  rw [if_neg]
  simp only [List.any_eq_true, decide_eq_true_eq, not_exists, not_and]
  exact fun p hp => h p hp

/-- Folding insert-with-overwrite over pairwise-fresh, duplicate-free
bindings just appends them in order. -/
theorem foldl_mapInsert {l : List (String × String)} :
    ∀ acc : List (String × String),
      (∀ k ∈ l.map Prod.fst, ∀ p ∈ acc, p.1 ≠ k) → (l.map Prod.fst).Nodup →
      l.foldl mapInsert acc = acc ++ l := by
  induction l with
  | nil => intro acc _ _; simp
  | cons kv l ih =>
    intro acc hdisj hnd
    simp only [List.foldl_cons]
    rw [mapInsert_fresh (fun p hp => hdisj kv.1 (by simp) p hp)]
    rw [ih (acc ++ [kv]) ?fresh ?nodup]
    · simp
    case fresh =>
      intro k hk p hp
      rcases List.mem_append.mp hp with hpa | hpk
      · exact hdisj k (by simp [hk]) p hpa
      · have hpkv : p = kv := by simpa using hpk
        subst hpkv
        simp only [List.map_cons, List.nodup_cons] at hnd
        exact fun heq => hnd.1 (heq ▸ hk)
    case nodup =>
      simp only [List.map_cons, List.nodup_cons] at hnd
      exact hnd.2

/-- Collecting the serialized form of a duplicate-free attribute map gives
the map back. -/
theorem collectAttrs_attrToks {attrs : List (String × String)}
    (hnd : (attrs.map Prod.fst).Nodup) : collectAttrs (attrToks attrs) = attrs := by
  unfold collectAttrs attrToks
  rw [List.filterMap_map]
  have hfm :
      (List.filterMap ((fun a =>
        match a with
        | AttrTok.ok k v => some (k, (Raw.unescape v).getD "")
        | AttrTok.malformed => none) ∘ fun p => AttrTok.ok p.1 (Raw.ok p.2)) attrs)
        = attrs := by
    have : ((fun a =>
        match a with
        | AttrTok.ok k v => some (k, (Raw.unescape v).getD "")
        | AttrTok.malformed => none) ∘ fun p : String × String => AttrTok.ok p.1 (Raw.ok p.2))
        = fun p : String × String => some p := by
      funext p
      simp [Raw.unescape]
    rw [this]
    simp
  rw [hfm]
  simpa using foldl_mapInsert [] (by simp) hnd

/-- Rebuilding an element from its own serialized pieces gives the element
back, for well-formed elements. -/
theorem mkElement_self {res : String → Option String} {e : Element}
    (hwf : WF res e) :
    mkElement res e.local_name (attrToks e.attributes) e.children
      (strTextOpt e.text) = e := by
  cases hwf with
  | mk nm nsv attrs cs tx hloc hns hnd _hmx _hch =>
    unfold mkElement
    simp only
    congr 1
    · exact hns.symm
    · exact collectAttrs_attrToks hnd
    · unfold strTextOpt
      by_cases htx : tx = "" <;> simp [htx]

/-! ## Round trip: materializing a serialized tree -/

/-- Parsing the serialization of a sibling sequence up to the enclosing end
tag recovers exactly those siblings, in order, with no text. -/
theorem parseBody_serializeChildren {res : String → Option String} {name : String} :
    ∀ cs : List Element, (∀ c ∈ cs, WF res c) →
      (∀ c ∈ cs, ∀ r : List Token,
        parseBodyV res c.local_name (serializeInner c ++ r)
          = .ok (c.children, strTextOpt c.text, r)) →
      ∀ rest : List Token,
        parseBodyV res name (serializeChildren cs ++ .endTag name :: rest)
          = .ok (cs, none, rest) := by
  intro cs
  induction cs with
  | nil =>
    intro _ _ rest
    simpa [serializeChildren] using parseBodyV_end_match res name rest
  | cons c cs ih =>
    intro hwf hrt rest
    simp only [serializeChildren, List.cons_append, List.append_assoc]
    have h1 := hrt c (by simp) (serializeChildren cs ++ .endTag name :: rest)
    have h2 := ih (fun x hx => hwf x (by simp [hx])) (fun x hx => hrt x (by simp [hx])) rest
    have hstep := parseBodyV_start_ok (a := attrToks c.attributes) h1 h2
    rw [mkElement_self (hwf c (by simp))] at hstep
    exact hstep

/-- Parsing the post-start-tag serialization of a well-formed element
recovers its children and its (optional) text, leaving the appended
remainder untouched. -/
theorem parseBody_serializeInner {res : String → Option String} {e : Element}
    (hwf : WF res e) :
    ∀ rest : List Token,
      parseBodyV res e.local_name (serializeInner e ++ rest)
        = .ok (e.children, strTextOpt e.text, rest) := by
  induction hwf with
  | mk nm nsv attrs cs tx hloc hns hnd hmx hch ih =>
    intro rest
    have hc := @parseBody_serializeChildren res nm cs hch
      (fun c hcmem => ih c hcmem) rest
    by_cases htx : tx = ""
    · subst htx
      simp only [serializeInner, if_pos rfl, List.nil_append, List.append_assoc,
        List.cons_append, strTextOpt, if_pos]
      simpa using hc
    · simp only [serializeInner, if_neg htx, List.append_assoc, List.cons_append,
        List.singleton_append]
      have hstep := parseBodyV_text_ok (r := Raw.ok tx) (by simpa using hc)
      simp only [Raw.unescape, Option.getD_some, Option.getD_none,
        String.append_empty] at hstep
      simpa [strTextOpt, htx] using hstep

/-- Materializing the serialization of a well-formed element with
`parse_start` (its start tag already consumed) returns the element itself
and leaves the appended remainder unread. -/
theorem parse_start_serialize {res : String → Option String} {e : Element}
    (hwf : WF res e) (rest : List Token) :
    parse_start res e.local_name (attrToks e.attributes) (serializeInner e ++ rest)
      = .ok (e, rest) := by
  have h := parse_start_of_V (a := attrToks e.attributes)
    (parseBody_serializeInner hwf rest)
  rwa [mkElement_self hwf] at h

/-- Generic first-match lemma for `List.find?` over a split list. -/
theorem find?_append_first {α : Type} (p : α → Bool) (pre : List α) (c : α)
    (post : List α) (hc : p c = true) (hpre : ∀ x ∈ pre, p x = false) :
    (pre ++ c :: post).find? p = some c := by
  induction pre with
  | nil => simp [List.find?_cons_of_pos, hc]
  | cons x pre ih =>
    rw [List.cons_append, List.find?_cons_of_neg]
    · exact ih fun y hy => hpre y (by simp [hy])
    · simp [hpre x (by simp)]

/-! ## Claims -/

/-- C1, counterexample: the spec's second example equation fails — a
`MCEX` product code with a subproduct code supplied falls into the
catch-all arm of the with-subproduct branch, which returns `BadSubProduct`,
not `BadProduct`. -/
theorem C1_counterexample :
    BaseProduct.tryFromCodes "MCEX" (some "GROS") none
      ≠ .error ProductError.BadProduct := by
  rw [show BaseProduct.tryFromCodes "MCEX" (some "GROS") none
      = .error ProductError.BadSubProduct from rfl]
  simp

/-- C1, amended: the five example equations of the taxonomy decoder, with
the second corrected to return `BadSubProduct` (the code's catch-all arm for
a supplied subproduct under a product with no subproduct table): decoding
`MCEX` alone gives `MultiCommodityExotic`; `MCEX` with a subproduct is
`BadSubProduct`; `AGRI`/`GROS`/`FWHT` gives the nested
`Agricultural(GrainsAndOilSeeds(FeedWheat))`; `AGRI`/`GROS` without a
further code is `NoSubProduct`; and `AGRI`/`POTA` with any further code is
`BadSubProduct`. -/
theorem C1_taxonomy_examples :
    BaseProduct.tryFromCodes "MCEX" none none = .ok .MultiCommodityExotic
    ∧ BaseProduct.tryFromCodes "MCEX" (some "GROS") none
        = .error ProductError.BadSubProduct
    ∧ BaseProduct.tryFromCodes "AGRI" (some "GROS") (some "FWHT")
        = .ok (.Agricultural (.GrainsAndOilSeeds .FeedWheat))
    ∧ BaseProduct.tryFromCodes "AGRI" (some "GROS") none
        = .error ProductError.NoSubProduct
    ∧ ∀ x : String, BaseProduct.tryFromCodes "AGRI" (some "POTA") (some x)
        = .error ProductError.BadSubProduct := by
  refine ⟨rfl, rfl, rfl, rfl, fun x => ?_⟩
  simp [BaseProduct.tryFromCodes, AgriculturalSubProduct.tryFromCodes,
    withoutFspOrErr, Except.map]

/-- C2, counterexample: a base product that has a subproduct table (`AGRI`)
called with no subproduct code does not give `NoSubProduct` — the
no-subproduct branch only recognizes `MCEX`/`INFL`/`OEST`/`OTHR` and its
catch-all returns `BadProduct`. -/
theorem C2_counterexample :
    BaseProduct.tryFromCodes "AGRI" none none
      ≠ .error ProductError.NoSubProduct := by
  rw [show BaseProduct.tryFromCodes "AGRI" none none
      = .error ProductError.BadProduct from rfl]
  simp

/-- C2, amended: for every base product code with the *none* cardinality
policy (`MCEX`, `INFL`, `OTHR`, `OEST`), supplying any subproduct code
yields `BadSubProduct` (not `BadProduct` as the claim stated); and for every
base product code that has a subproduct table, omitting the subproduct
yields `BadProduct` (not `NoSubProduct`). -/
theorem C2_cardinality_policy :
    ∀ (s : String) (f : Option String),
      (BaseProduct.tryFromCodes "MCEX" (some s) f = .error ProductError.BadSubProduct
        ∧ BaseProduct.tryFromCodes "INFL" (some s) f = .error ProductError.BadSubProduct
        ∧ BaseProduct.tryFromCodes "OTHR" (some s) f = .error ProductError.BadSubProduct
        ∧ BaseProduct.tryFromCodes "OEST" (some s) f = .error ProductError.BadSubProduct)
      ∧ (BaseProduct.tryFromCodes "AGRI" none f = .error ProductError.BadProduct
        ∧ BaseProduct.tryFromCodes "NRGY" none f = .error ProductError.BadProduct
        ∧ BaseProduct.tryFromCodes "ENVR" none f = .error ProductError.BadProduct
        ∧ BaseProduct.tryFromCodes "FRGT" none f = .error ProductError.BadProduct
        ∧ BaseProduct.tryFromCodes "FRTL" none f = .error ProductError.BadProduct
        ∧ BaseProduct.tryFromCodes "INDP" none f = .error ProductError.BadProduct
        ∧ BaseProduct.tryFromCodes "METL" none f = .error ProductError.BadProduct
        ∧ BaseProduct.tryFromCodes "PAPR" none f = .error ProductError.BadProduct
        ∧ BaseProduct.tryFromCodes "POLY" none f = .error ProductError.BadProduct
        ∧ BaseProduct.tryFromCodes "OTHC" none f = .error ProductError.BadProduct) :=
  fun _ _ =>
    ⟨⟨rfl, rfl, rfl, rfl⟩, rfl, rfl, rfl, rfl, rfl, rfl, rfl, rfl, rfl, rfl⟩

/-- C3, counterexample: the iterator does not yield one element per
occurrence of an interesting start tag at any depth — an interesting start
tag nested inside an already-matched element is consumed by the
materializer, so the document `<Foo><Foo/></Foo>` (two `Foo` start tags)
yields one element, not two. -/
theorem C3_counterexample :
    (iterAux ["Foo"] (fun _ => none)
      [.start "Foo" [], .start "Foo" [], .endTag "Foo", .endTag "Foo"]).1.length = 1
    ∧ (iterAux ["Foo"] (fun _ => none)
      [.start "Foo" [], .start "Foo" [], .endTag "Foo", .endTag "Foo"]).1.length
        ≠ 2 := by
  have h : (iterAux ["Foo"] (fun _ => none)
      [.start "Foo" [], .start "Foo" [], .endTag "Foo", .endTag "Foo"]).1.length = 1 := by
    simp [iterAux, parseBody]
  exact ⟨h, by rw [h]; decide⟩

/-- C3, amended: matching is depth-independent in the sense that the scanner
never prunes a skipped subtree — an uninteresting start tag is passed over
and iteration of the rest of the stream is unchanged, so interesting tags
inside uninteresting wrappers at any depth are still matched; in particular
`<Bar><Foo/></Bar><Foo/>` with interest set `{"Foo"}` yields exactly two
elements.  (Occurrences nested inside an already-matched element's subtree
are consumed by the materializer and not yielded separately.) -/
theorem C3_depth_independence :
    (∀ (names : List String) (res : String → Option String) (n : String)
        (a : List AttrTok) (ts : List Token), n ∉ names →
        iterAux names res (.start n a :: ts) = iterAux names res ts)
    ∧ (iterAux ["Foo"] (fun _ => none)
        [.start "Bar" [], .start "Foo" [], .endTag "Foo", .endTag "Bar",
          .start "Foo" [], .endTag "Foo"]).1.length = 2 := by
  refine ⟨fun names res n a ts h => iterAux_start_not_mem h a ts, ?_⟩
  simp [iterAux, parseBody]

/-- C3, witness for the amended theorem at a concrete input. -/
theorem C3_depth_independence_witness :
    ("Bar" ∉ ["Foo"])
    ∧ iterAux ["Foo"] (fun _ => none) (.start "Bar" [] :: [.endTag "Bar"])
        = iterAux ["Foo"] (fun _ => none) [.endTag "Bar"] :=
  ⟨by simp, C3_depth_independence.1 ["Foo"] (fun _ => none) "Bar" [] [.endTag "Bar"]
    (by simp)⟩

/-- C4: the materializer is total and permissive — `parse_start` returns
`Ok` with an element on every token stream (its only error path is the
propagated recursive call, which never produces one), and in particular a
stream truncated before any closing tag yields the partial tree built so
far, as a success. -/
theorem C4_parse_start_total :
    (∀ (res : String → Option String) (name : String) (attrs : List AttrTok)
        (ts : List Token), ∃ e rest, parse_start res name attrs ts = .ok (e, rest))
    ∧ parse_start (fun _ => none) "A" [] [.start "B" [], .text (.ok "x")]
        = .ok (⟨"A", none, [], [⟨"B", none, [], [], "x"⟩], ""⟩, []) := by
  constructor
  · intro res name attrs ts
    obtain ⟨cs, txt, rest, h⟩ := parseBodyV_total res name ts
    exact ⟨_, _, parse_start_of_V h⟩
  · simp [parse_start, parseBody, mkElement, collectAttrs, localOf, afterColon,
      Raw.unescape]

/-- C5: round-trip well-formedness — for every tree without mixed content
(and with sane names, resolver-consistent namespaces and duplicate-free
attribute keys, as any materialized tree has), serializing it to tokens and
materializing the result gives back the same tree: `parse_start` on the
post-start-tag tokens returns the tree itself (children in document order,
text containing only the node's own direct text), and a full iteration over
the serialized element yields exactly that tree. -/
theorem C5_roundtrip :
    ∀ (res : String → Option String) (e : Element), WF res e →
      (∀ rest : List Token,
        parse_start res e.local_name (attrToks e.attributes)
          (serializeInner e ++ rest) = .ok (e, rest))
      ∧ iterAux [e.local_name] res (serializeElem e) = ([.ok e], false) := by
  intro res e hwf
  refine ⟨fun rest => parse_start_serialize hwf rest, ?_⟩
  have hv : parseBodyV res e.local_name (serializeInner e)
      = .ok (e.children, strTextOpt e.text, []) := by
    have := parseBody_serializeInner hwf []
    rwa [List.append_nil] at this
  unfold serializeElem
  rw [iterAux_start_mem (by simp) (attrToks e.attributes) hv]
  rw [mkElement_self hwf]
  simp [iterAux_nil]

/-- C5, witness: the round trip at a concrete two-node tree. -/
theorem C5_roundtrip_witness :
    WF (fun _ => none)
      ⟨"Foo", none, [("a", "1")], [⟨"Bar", none, [], [], "hi"⟩], ""⟩
    ∧ iterAux ["Foo"] (fun _ => none)
        (serializeElem ⟨"Foo", none, [("a", "1")], [⟨"Bar", none, [], [], "hi"⟩], ""⟩)
      = ([.ok ⟨"Foo", none, [("a", "1")], [⟨"Bar", none, [], [], "hi"⟩], ""⟩], false) := by
  have hbar : WF (fun _ => none) ⟨"Bar", (none : Option String), [], [], "hi"⟩ := by
    refine WF.mk _ _ _ _ _ rfl rfl (by simp) (Or.inr rfl) ?_
    intro c hc
    simp at hc
  have hwf : WF (fun _ => none)
      ⟨"Foo", none, [("a", "1")], [⟨"Bar", none, [], [], "hi"⟩], ""⟩ := by
    refine WF.mk _ _ _ _ _ rfl rfl (by simp) (Or.inl rfl) ?_
    intro c hc
    simp only [List.mem_singleton] at hc
    subst hc
    exact hbar
  exact ⟨hwf, (C5_roundtrip (fun _ => none) _ hwf).2⟩

/-- C6, counterexample: a tokenizer read failure during scanning is not
yielded as an `Err` item of the sequence — the `Err(e)` arm of `next`
panics. -/
theorem C6_counterexample :
    NextOutcome.isItem (nextItem ["Foo"] (fun _ => none) [.readErr]) = false
    ∧ nextItem ["Foo"] (fun _ => none) [.readErr] = .panicked :=
  ⟨rfl, rfl⟩

/-- C6, amended: when the tokenizer reports a read failure while the
iterator is scanning for the next interesting start tag, the iterator does
not retry and does not return the failure as an `Err` item: it aborts by
panicking (the `Err(e) => panic!` arm of `next`). -/
theorem C6_read_failure_panics :
    ∀ (names : List String) (res : String → Option String) (pre rest : List Token),
      (∀ t ∈ pre, SkipTok names t) →
      nextItem names res (pre ++ .readErr :: rest) = .panicked := by
  intro names res pre rest h
  induction pre with
  | nil => rfl
  | cons t pre ih =>
    have ht := h t (by simp)
    have hrest : ∀ x ∈ pre, SkipTok names x := fun x hx => h x (by simp [hx])
    cases t with
    | start n a =>
      have hn : n ∉ names := ht
      simp only [List.cons_append, nextItem, hn, if_false]
      exact ih hrest
    | text r => simpa only [List.cons_append, nextItem] using ih hrest
    | endTag n => simpa only [List.cons_append, nextItem] using ih hrest
    | readErr => rfl
    | other => simpa only [List.cons_append, nextItem] using ih hrest

/-- C6, witness for the amended theorem: scanning past an uninteresting
start tag and a text node and then hitting a read failure panics. -/
theorem C6_read_failure_panics_witness :
    (∀ t ∈ [Token.start "Bar" [], Token.text (Raw.ok "z")], SkipTok ["Foo"] t)
    ∧ nextItem ["Foo"] (fun _ => none)
        ([Token.start "Bar" [], Token.text (Raw.ok "z")] ++ .readErr :: [])
      = .panicked := by
  have hskip : ∀ t ∈ [Token.start "Bar" [], Token.text (Raw.ok "z")],
      SkipTok ["Foo"] t := by
    intro t ht
    simp only [List.mem_cons, List.mem_singleton] at ht
    rcases ht with h | h | h
    · subst h; simp [SkipTok]
    · subst h; trivial
    · simp at h
  exact ⟨hskip,
    C6_read_failure_panics ["Foo"] (fun _ => none)
      [Token.start "Bar" [], Token.text (Raw.ok "z")] [] hskip⟩

/-- C7, counterexample: conversion failures during materialization are
silently absorbed into defaults, not reported — an attribute value whose
unescaping fails becomes the empty string in the attribute map, a malformed
attribute is dropped from the map, and a text node whose unescaping fails
contributes the empty string; in all three cases `parse_start` returns
`Ok`. -/
theorem C7_counterexample :
    parse_start (fun _ => none) "Foo" [.ok "a" .bad] []
        = .ok (⟨"Foo", none, [("a", "")], [], ""⟩, [])
    ∧ parse_start (fun _ => none) "Foo" [.malformed] []
        = .ok (⟨"Foo", none, [], [], ""⟩, [])
    ∧ parse_start (fun _ => none) "Foo" [] [.text .bad]
        = .ok (⟨"Foo", none, [], [], ""⟩, []) := by
  refine ⟨?_, ?_, ?_⟩ <;>
    simp [parse_start, parseBody, mkElement, collectAttrs, mapInsert, localOf,
      afterColon, Raw.unescape]

/-- C7, amended: the materializer defaults failed conversions instead of
reporting them — a text token whose unescaping fails behaves exactly like
one that unescapes to the empty string, an attribute whose value fails to
unescape behaves exactly like one whose value unescapes to the empty
string, and a malformed attribute is dropped from the collected map. -/
theorem C7_unescape_defaults :
    (∀ (res : String → Option String) (name : String) (ts : List Token),
      parseBodyV res name (.text .bad :: ts)
        = parseBodyV res name (.text (.ok "") :: ts))
    ∧ (∀ (k : String) (rest : List AttrTok),
      collectAttrs (.ok k .bad :: rest) = collectAttrs (.ok k (.ok "") :: rest))
    ∧ (∀ rest : List AttrTok, collectAttrs (.malformed :: rest) = collectAttrs rest) := by
  refine ⟨?_, fun k rest => rfl, fun rest => rfl⟩
  intro res name ts
  obtain ⟨cs, txt, r1, h⟩ := parseBodyV_total res name ts
  rw [parseBodyV_text_ok h, parseBodyV_text_ok h]
  simp [Raw.unescape]

/-- C8: the `InterestRate` choice — an element with a `Fxd` child (whose
text parses as an `f64`) and no `Fltg` child decodes to `Fixed`; an element
with a `Fltg` child and no `Fxd` child decodes to `Floating` when the
`Fltg` subtree decodes (its `FloatingRate` and optional `BsisPtSprd`
spread); an element with neither child is an `ElementNotFound` error. -/
theorem C8_interest_rate_choice :
    ∀ (F64 : Type) (parseF64 : String → Option F64)
      (parseI32 : String → Option Int) (elem : Element),
      (∀ (c : Element) (x : F64), elem.find_child "Fxd" = some c →
        elem.find_child "Fltg" = none → parseF64 c.text = some x →
        InterestRate.from_xml parseF64 parseI32 elem = .ok (.Fixed x))
      ∧ (∀ (fltg : Element) (fr : FloatingRate) (sp : Option Int),
        elem.find_child "Fltg" = some fltg → elem.find_child "Fxd" = none →
        FloatingRate.from_xml parseI32 fltg = .ok fr →
        parse_or_none parseI32 XmlErr.Int (fltg.find_child "BsisPtSprd") = .ok sp →
        InterestRate.from_xml parseF64 parseI32 elem = .ok (.Floating fr sp))
      ∧ (elem.find_child "Fltg" = none → elem.find_child "Fxd" = none →
        InterestRate.from_xml parseF64 parseI32 elem = .error .ElementNotFound) := by
  intro F64 parseF64 parseI32 elem
  refine ⟨?_, ?_, ?_⟩
  · intro c x hfxd hflt hp
    simp only [InterestRate.from_xml, hflt, Element.get_child, hfxd, hp]
  · intro fltg fr sp hflt hfxd hfr hsp
    simp only [InterestRate.from_xml, hflt, hfr, hsp]
  · intro hflt hfxd
    simp only [InterestRate.from_xml, hflt, Element.get_child, hfxd]

/-- C8, witness: the three branches at concrete elements. -/
theorem C8_interest_rate_choice_witness :
    ((⟨"IR", none, [], [⟨"Fxd", none, [], [], "7.5"⟩], ""⟩ : Element).find_child "Fxd"
        = some ⟨"Fxd", none, [], [], "7.5"⟩
      ∧ InterestRate.from_xml (fun _ => some (36 : Int)) (fun _ => some 0)
          ⟨"IR", none, [], [⟨"Fxd", none, [], [], "7.5"⟩], ""⟩ = .ok (.Fixed 36))
    ∧ InterestRate.from_xml (fun _ => some (36 : Int)) (fun _ => some 0)
        ⟨"IR", none, [], [⟨"Fltg", none, [], [⟨"RefRate", none, [], [], ""⟩], ""⟩], ""⟩
      = .ok (.Floating ⟨none, none⟩ none)
    ∧ InterestRate.from_xml (fun _ => some (36 : Int)) (fun _ => some 0)
        ⟨"IR", none, [], [], ""⟩ = .error .ElementNotFound := by
  refine ⟨⟨rfl, ?_⟩, ?_, ?_⟩
  · exact (C8_interest_rate_choice Int (fun _ => some 36) (fun _ => some 0)
      ⟨"IR", none, [], [⟨"Fxd", none, [], [], "7.5"⟩], ""⟩).1
      ⟨"Fxd", none, [], [], "7.5"⟩ 36 rfl rfl rfl
  · exact (C8_interest_rate_choice Int (fun _ => some 36) (fun _ => some 0)
      ⟨"IR", none, [], [⟨"Fltg", none, [], [⟨"RefRate", none, [], [], ""⟩], ""⟩], ""⟩).2.1
      ⟨"Fltg", none, [], [⟨"RefRate", none, [], [], ""⟩], ""⟩ ⟨none, none⟩ none
      rfl rfl rfl rfl
  · exact (C8_interest_rate_choice Int (fun _ => some 36) (fun _ => some 0)
      ⟨"IR", none, [], [], ""⟩).2.2 rfl rfl

/-- C9: `date_or_none` slices `&elem.text[..10]` unconditionally, so on a
text shorter than ten bytes the slice is out of range and the call panics
instead of returning a value — the claim's totality fails (the code is the
slip: the slice was meant as a defensive truncation).  An absent element
still gives `Ok(None)`, and for texts where the slice succeeds the result
depends only on the first ten bytes of the text. -/
theorem C9_date_slice_panics :
    ∀ (δ : Type) (chronoParse : String → Except Unit δ),
      date_or_none chronoParse (some ⟨"MtrtyDt", none, [], [], "2020"⟩) = .panicked
      ∧ date_or_none chronoParse none = .ok none
      ∧ ∀ (t1 t2 : String), takeBytes t1.data 10 = takeBytes t2.data 10 →
          date_or_none chronoParse (some ⟨"Dt", none, [], [], t1⟩)
            = date_or_none chronoParse (some ⟨"Dt", none, [], [], t2⟩) := by
  intro δ chronoParse
  refine ⟨rfl, rfl, ?_⟩
  intro t1 t2 h
  simp only [date_or_none, h]

/-- C9, witness: two texts agreeing on their first ten bytes give the same
result. -/
theorem C9_date_slice_panics_witness :
    takeBytes ("2020-01-02xyz" : String).data 10
      = takeBytes ("2020-01-02abc" : String).data 10
    ∧ date_or_none (fun _ => Except.error ())
        (some ⟨"Dt", none, [], [], "2020-01-02xyz"⟩)
      = date_or_none (fun _ => (Except.error () : Except Unit Nat))
        (some ⟨"Dt", none, [], [], "2020-01-02abc"⟩) := by
  have h : takeBytes ("2020-01-02xyz" : String).data 10
      = takeBytes ("2020-01-02abc" : String).data 10 := by decide
  exact ⟨h, (C9_date_slice_panics Nat (fun _ => Except.error ())).2.2
    "2020-01-02xyz" "2020-01-02abc" h⟩

/-- C10: `find_child` returns the first child in document order whose local
name equals the tag whenever one exists (children before it never match,
children after it are never consulted), and `none` when no child matches;
`get_child` returns the same child, or `ElementNotFound` when none
matches. -/
theorem C10_find_child :
    ∀ (e : Element) (tag : String),
      (∀ (pre : List Element) (c : Element) (post : List Element),
        e.children = pre ++ c :: post → c.local_name = tag →
        (∀ x ∈ pre, x.local_name ≠ tag) →
        e.find_child tag = some c ∧ e.get_child tag = .ok c)
      ∧ ((∀ x ∈ e.children, x.local_name ≠ tag) →
        e.find_child tag = none ∧ e.get_child tag = .error .ElementNotFound) := by
  intro e tag
  constructor
  · intro pre c post hsplit hc hpre
    have hfind : e.find_child tag = some c := by
      unfold Element.find_child
      rw [hsplit]
      exact find?_append_first _ pre c post (by simp [hc])
        fun x hx => by simp [hpre x hx]
    exact ⟨hfind, by unfold Element.get_child; rw [hfind]⟩
  · intro hall
    have hfind : e.find_child tag = none := by
      unfold Element.find_child
      rw [List.find?_eq_none]
      intro x hx
      simpa using hall x hx
    exact ⟨hfind, by unfold Element.get_child; rw [hfind]⟩

/-- C10, witness: first-match behaviour among two same-named children, and
the not-found behaviour. -/
theorem C10_find_child_witness :
    ((⟨"P", none, [],
        [⟨"B", none, [], [], ""⟩, ⟨"A", none, [], [], "1"⟩, ⟨"A", none, [], [], "2"⟩],
        ""⟩ : Element).find_child "A" = some ⟨"A", none, [], [], "1"⟩
      ∧ (⟨"P", none, [],
        [⟨"B", none, [], [], ""⟩, ⟨"A", none, [], [], "1"⟩, ⟨"A", none, [], [], "2"⟩],
        ""⟩ : Element).get_child "A" = .ok ⟨"A", none, [], [], "1"⟩)
    ∧ ((⟨"P", none, [],
        [⟨"B", none, [], [], ""⟩, ⟨"A", none, [], [], "1"⟩, ⟨"A", none, [], [], "2"⟩],
        ""⟩ : Element).find_child "Z" = none
      ∧ (⟨"P", none, [],
        [⟨"B", none, [], [], ""⟩, ⟨"A", none, [], [], "1"⟩, ⟨"A", none, [], [], "2"⟩],
        ""⟩ : Element).get_child "Z" = .error .ElementNotFound) := by
  constructor
  · exact (C10_find_child _ "A").1 [⟨"B", none, [], [], ""⟩]
      ⟨"A", none, [], [], "1"⟩ [⟨"A", none, [], [], "2"⟩] rfl rfl
      (by intro x hx; simp only [List.mem_singleton] at hx; subst hx; simp)
  · exact (C10_find_child _ "Z").2
      (by intro x hx; fin_cases hx <;> simp)

end Firds
